import Mathlib

/-!
# Alicloud ECS service discovery for Prometheus

A shallow embedding of the discovery core of `prometheus-ecs-sd`:

* `pkg/aliyun/ecs.go`: `splitTag`, `DescribeInstances`, `totalPage`, `GetServers`;
* `main.go`: the label names, `createTarget`, `getTargets`, and the parts of `Run`
  that decide what is sent to the sink and how long a tick lasts;
* `pkg/config/config.go`: `DefaultSDConfig`.

Conventions of the embedding.

* A Go `string` is a Lean `String`; slices are lists; a nil slice and an empty slice are
  both `[]`, a nil map and an empty map are both the empty association list.
* A Go `int` / `int64` is an `Int`; every operation that can leave the 64-bit range is
  followed by `wrapInt64`.
* A pointer that may be nil is an `Option`.
* The remote API is an oracle: the answer to the `n`-th request of one client, given the
  request that was sent.
* The process-wide Prometheus counters are fields of the state that is passed along.
-/

namespace EcsSD

/-! ## Machine integers -/

/-- Two's-complement reduction to the range of a signed 64-bit integer. -/
def wrapInt64 (x : Int) : Int := (x + 2 ^ 63) % 2 ^ 64 - 2 ^ 63

/-- Go's `time.Second`, in nanoseconds. -/
def Second : Int := 1000000000

/-! ## Go maps -/

/-- A Go `map[string]string` (`model.LabelSet`): an association list whose keys are
pairwise distinct; `[]` is both the nil and the empty map. -/
abbrev LabelSet := List (String × String)

/-- Map assignment `m[k] = v`: overwrites the binding of `k` when there is one, adds a new
binding otherwise. -/
def mapAssign (m : LabelSet) (k v : String) : LabelSet :=
  if m.any (fun e => e.1 == k) then m.map (fun e => if e.1 = k then (k, v) else e)
  else m ++ [(k, v)]

/-- Map read `m[k]` with the presence flag. -/
def mapLookup (m : LabelSet) (k : String) : Option String := List.lookup k m

/-- A Go `map[string]struct{}`: the list of its keys, pairwise distinct. -/
abbrev SourceSet := List String

/-- Set insertion `m[k] = struct{}{}`. -/
def setInsert (m : SourceSet) (k : String) : SourceSet :=
  if k ∈ m then m else m ++ [k]

/-! ## Library functions used by the program -/

/-- `model.MetaLabelPrefix` of `prometheus/common`. -/
def MetaLabelPrefix : String := "__meta_"

/-- `model.AddressLabel` of `prometheus/common`. -/
def AddressLabel : String := "__address__"

/-- The character class `[a-zA-Z0-9_]`. -/
def isLabelChar (c : Char) : Bool := c.isAlphanum || c == '_'

/-- `strutil.SanitizeLabelName` of Prometheus: `[^a-zA-Z0-9_]` replaced by `_`. -/
def SanitizeLabelName (name : String) : String :=
  String.mk (name.data.map (fun c => if isLabelChar c then c else '_'))

/-- `net.JoinHostPort` of the Go standard library: a host that contains a colon is taken
to be a literal IPv6 address and is put in square brackets. -/
def JoinHostPort (host port : String) : String :=
  if ':' ∈ host.data then "[" ++ host ++ "]:" ++ port else host ++ ":" ++ port

/-- `fmt.Sprintf("%d", n)`: the decimal rendering of an integer. -/
def fmtInt (n : Int) : String := toString n

/-- `strings.Split(s, sep)` for a separator of one character. -/
def Split (s : String) (sep : Char) : List String :=
  (List.splitOn sep s.data).map String.mk

/-! ## Data model (`ecs` SDK types, `targetgroup.Group`, configuration) -/

/-- `ecs.Tag`, the fields the program reads. -/
structure Tag where
  TagKey : String
  TagValue : String
deriving DecidableEq, Repr

/-- `ecs.PrivateIpAddressInVpcAttributes` and `ecs.PublicIpAddressInDescribeInstances`. -/
structure IpAddressSet where
  IpAddress : List String
deriving DecidableEq, Repr

/-- `ecs.VpcAttributes`, the fields the program reads. -/
structure VpcAttributes where
  VpcId : String
  PrivateIpAddress : IpAddressSet
deriving DecidableEq, Repr

/-- `ecs.TagsInDescribeInstances`. -/
structure Tags where
  Tag : List Tag
deriving DecidableEq, Repr

/-- `ecs.Instance`, the fields the program reads. -/
structure Instance where
  InstanceId : String
  InstanceName : String
  InstanceType : String
  Status : String
  RegionId : String
  VpcAttributes : VpcAttributes
  PublicIpAddress : IpAddressSet
  Tags : Tags
deriving DecidableEq, Repr

/-- `targetgroup.Group`. -/
structure Group where
  Source : String
  Targets : List LabelSet
  Labels : LabelSet
deriving DecidableEq, Repr

/-- `config.Filter`. -/
structure Filter where
  Name : String
  Value : String
deriving DecidableEq, Repr

/-- `config.SDConfig`; `RefreshInterval` is a `model.Duration`, a number of nanoseconds. -/
structure SDConfig where
  Region : String
  AccessKey : String
  SecretKey : String
  RefreshInterval : Int
  Port : Int
  Filters : List Filter
deriving DecidableEq, Repr

/-- `config.DefaultSDConfig`: port 80 and a refresh interval of `60 * time.Second`. -/
def DefaultSDConfig : SDConfig :=
  { Region := "", AccessKey := "", SecretKey := "", RefreshInterval := 60 * Second,
    Port := 80, Filters := [] }

/-- `ecs.DescribeInstancesTag`. -/
structure DescribeInstancesTag where
  Key : String
  Value : String
deriving DecidableEq, Repr

/-- `ecs.DescribeInstancesRequest`, the fields the program sets. -/
structure DescribeInstancesRequest where
  Scheme : String
  Status : String
  InstanceNetworkType : String
  PageNumber : Int
  PageSize : Int
  InstanceIds : String
  Tag : Option (List DescribeInstancesTag)
  InstanceName : String
deriving DecidableEq, Repr

/-- `ecs.DescribeInstancesResponse`, the fields the program reads
(`Instances` is `response.Instances.Instance`). -/
structure DescribeInstancesResponse where
  TotalCount : Int
  Instances : List Instance
deriving DecidableEq, Repr

/-- The remote inventory API as one client sees it: the answer to its `n`-th request
(counted from 0), given the request sent. -/
abbrev DescribeInstancesApi := Nat → DescribeInstancesRequest → Except String DescribeInstancesResponse

/-! ## `pkg/aliyun/ecs.go` -/

/-- `splitTag`: one entry per comma-separated piece that splits on `:` into exactly two
parts. -/
def splitTag (tag : String) : List DescribeInstancesTag :=
  (Split tag ',').foldl
    (fun ret t =>
      match Split t ':' with
      | [k, v] => ret ++ [{ Key := k, Value := v }]
      | _ => ret)
    []

/-- The `switch f.Name` of `DescribeInstances`: what one filter does to the request. -/
def applyFilter (request : DescribeInstancesRequest) (f : Filter) : DescribeInstancesRequest :=
  if f.Name = "InstanceIds" then { request with InstanceIds := f.Value }
  else if f.Name = "Status" then { request with Status := f.Value }
  else if f.Name = "Tag" then { request with Tag := some (splitTag f.Value) }
  else if f.Name = "InstanceName" then { request with InstanceName := f.Value }
  else request

/-- The request built by `DescribeInstances` before it is sent. -/
def describeInstancesRequest (filters : List Filter) (pageNumber pageSize : Int) :
    DescribeInstancesRequest :=
  filters.foldl applyFilter
    { Scheme := "https", Status := "Running", InstanceNetworkType := "vpc",
      PageNumber := pageNumber, PageSize := pageSize, InstanceIds := "", Tag := none,
      InstanceName := "" }

/-- `totalPage`, with Go's truncating `/` and `%`. Go panics on `size = 0`; the only call
passes the constant page size 100. -/
def totalPage (record size : Int) : Int :=
  let tp := wrapInt64 (Int.tdiv record size)
  if Int.tmod record size = 0 then tp else wrapInt64 (tp + 1)

/-- What a run of `GetServers` did: `result` is `none` when the loop was still running
when the fuel ran out, else the returned pair as an `Except`; `log` is the list of the
requests sent, in order, each with its answer. -/
structure GetServersRun where
  result : Option (Except String (List Instance))
  log : List (DescribeInstancesRequest × Except String DescribeInstancesResponse)

/-- `DescribeInstances`: builds the request and sends it as the next request of the
client. -/
def DescribeInstances (filters : List Filter) (api : DescribeInstancesApi)
    (log : List (DescribeInstancesRequest × Except String DescribeInstancesResponse))
    (pageNumber pageSize : Int) :
    DescribeInstancesRequest × Except String DescribeInstancesResponse :=
  let request := describeInstancesRequest filters pageNumber pageSize
  (request, api log.length request)

/-- The `for` loop of `GetServers`, one iteration per unit of fuel. -/
def GetServersLoop (filters : List Filter) (api : DescribeInstancesApi) :
    Nat → List (DescribeInstancesRequest × Except String DescribeInstancesResponse) →
    Int → DescribeInstancesResponse → List Instance → GetServersRun
  | 0, log, _, _, _ => { result := none, log := log }
  | fuel + 1, log, pageIndex, response, servers =>
    if pageIndex ≤ totalPage response.TotalCount 100 then
      let call := DescribeInstances filters api log pageIndex 100
      match call.2 with
      | .error err => { result := some (.error err), log := log ++ [call] }
      | .ok response =>
        GetServersLoop filters api fuel (log ++ [call]) (wrapInt64 (pageIndex + 1)) response
          (servers ++ response.Instances)
    else { result := some (.ok servers), log := log }

/-- `GetServers`: one request for page 1, then the loop from page 1 on. -/
def GetServers (filters : List Filter) (api : DescribeInstancesApi) (fuel : Nat) :
    GetServersRun :=
  let call := DescribeInstances filters api [] 1 100
  match call.2 with
  | .error err => { result := some (.error err), log := [call] }
  | .ok response => GetServersLoop filters api fuel [call] 1 response []

/-! ## `main.go` -/

/-- The variable `ecsPrefix`: the stem of every label name. -/
def ecsPrefix : String := MetaLabelPrefix ++ "ecs_"

/-- `ecsLabelInstanceName`. -/
def ecsLabelInstanceName : String := ecsPrefix ++ "instance_name"

/-- `ecsLabelInstanceId`. -/
def ecsLabelInstanceId : String := ecsPrefix ++ "instance_id"

/-- `ecsLabelInstanceType`. -/
def ecsLabelInstanceType : String := ecsPrefix ++ "instance_type"

/-- `ecsLabelPrivateIP`. -/
def ecsLabelPrivateIP : String := ecsPrefix ++ "private_ip"

/-- `ecsLabelPublicIP`. -/
def ecsLabelPublicIP : String := ecsPrefix ++ "public_ip"

/-- `ecsLabelStatus`. -/
def ecsLabelStatus : String := ecsPrefix ++ "status"

/-- `ecsLabelTag`. -/
def ecsLabelTag : String := ecsPrefix ++ "tag_"

/-- `ecsLabelRegionId`. -/
def ecsLabelRegionId : String := ecsPrefix ++ "region_id"

/-- `ecsLabelVPCID`. -/
def ecsLabelVPCID : String := ecsPrefix ++ "vpc_id"

/-- `ecsDiscoverer` (the logger left out). -/
structure ecsDiscoverer where
  ecsSDConfig : SDConfig
  port : Int
  refresh : Int
  lasts : SourceSet
deriving DecidableEq, Repr

/-- The tag loop of `createTarget`. -/
def tagLabels (labels : LabelSet) (tags : List Tag) : LabelSet :=
  tags.foldl
    (fun labels t =>
      if t.TagKey = "" ∨ t.TagValue = "" then labels
      else mapAssign labels (ecsLabelTag ++ SanitizeLabelName t.TagKey) t.TagValue)
    labels

/-- `createTarget`. -/
def createTarget (d : ecsDiscoverer) (srv : Instance) : Group :=
  let tg : Group := { Source := "ecs/" ++ srv.InstanceId, Targets := [], Labels := [] }
  match srv.VpcAttributes.PrivateIpAddress.IpAddress with
  | [] => tg
  | privateIp0 :: _ =>
    let addr := JoinHostPort privateIp0 (fmtInt d.port)
    let labels : LabelSet := []
    let labels := mapAssign labels ecsLabelInstanceId srv.InstanceId
    let labels := mapAssign labels ecsLabelInstanceName srv.InstanceName
    let labels := mapAssign labels ecsLabelInstanceType srv.InstanceType
    let labels := mapAssign labels ecsLabelPrivateIP privateIp0
    let labels := mapAssign labels ecsLabelStatus srv.Status
    let labels := mapAssign labels ecsLabelRegionId srv.RegionId
    let labels := mapAssign labels ecsLabelVPCID srv.VpcAttributes.VpcId
    let labels :=
      match srv.PublicIpAddress.IpAddress with
      | [] => labels
      | publicIp0 :: _ => mapAssign labels ecsLabelPublicIP publicIp0
    let labels := tagLabels labels srv.Tags.Tag
    { tg with Targets := [[(AddressLabel, addr)]], Labels := labels }

/-- The discoverer together with the process-wide metrics: the failure counter and the
number of observations of the latency histogram. -/
structure State where
  d : ecsDiscoverer
  requestFailures : Nat
  requestDurationCount : Nat
deriving DecidableEq, Repr

/-- A batch of `[]*targetgroup.Group`; `none` is a nil pointer. -/
abbrev Batch := List (Option Group)

/-- The first loop of `getTargets`: one group per server, appended to `tgs`, and its
source recorded in `current`. -/
def addServers (d : ecsDiscoverer) (srvs : List Instance) (current : SourceSet)
    (tgs : Batch) : SourceSet × Batch :=
  srvs.foldl
    (fun acc s =>
      let tg := createTarget d s
      (setInsert acc.1 tg.Source, acc.2 ++ [some tg]))
    (current, tgs)

/-- The second loop of `getTargets`: an empty group for every key of `lasts` that is not
in `current`. Go leaves the order of a map iteration open; the embedding takes the keys in
list order. -/
def addDeleted (lasts current : SourceSet) (tgs : Batch) : Batch :=
  lasts.foldl
    (fun tgs k =>
      if k ∈ current then tgs else tgs ++ [some { Source := k, Targets := [], Labels := [] }])
    tgs

/-- The body of `getTargets` from the return of `ecsClient.GetServers()` on. -/
def getTargetsOn (st : State) (r : Except String (List Instance)) :
    State × Except String Batch :=
  let st := { st with requestDurationCount := st.requestDurationCount + 1 }
  match r with
  | .error err => ({ st with requestFailures := st.requestFailures + 1 }, .error err)
  | .ok srvs =>
    let tgs : Batch := List.replicate srvs.length none
    let acc := addServers st.d srvs [] tgs
    let current := acc.1
    let tgs := addDeleted st.d.lasts current acc.2
    ({ st with d := { st.d with lasts := current } }, .ok tgs)

/-- `getTargets`: `none` when `GetServers` did not return within the fuel. -/
def getTargets (st : State) (api : DescribeInstancesApi) (fuel : Nat) :
    Option (State × Except String Batch) :=
  (GetServers st.d.ecsSDConfig.Filters api fuel).result.map (getTargetsOn st)

/-- The period handed to `time.Tick` in `Run`:
`time.Duration(d.refresh) * time.Second`, a product of two `int64`. -/
def RunTickPeriod (d : ecsDiscoverer) : Int := wrapInt64 (d.refresh * Second)

/-- One pass of the loop of `Run` up to the `select`: the new state and what was sent on
the channel, `none` when nothing was sent. -/
def RunCycle (st : State) (api : DescribeInstancesApi) (fuel : Nat) :
    Option (State × Option Batch) :=
  (getTargets st api fuel).map fun out =>
    match out.2 with
    | .ok tgs => (out.1, some tgs)
    | .error _ => (out.1, none)

/-- The discoverer built by `main` from a loaded configuration. -/
def newDiscoverer (conf : SDConfig) : ecsDiscoverer :=
  { ecsSDConfig := conf, port := conf.Port, refresh := conf.RefreshInterval, lasts := [] }

/-- The state at the start of the process. -/
def initialState (conf : SDConfig) : State :=
  { d := newDiscoverer conf, requestFailures := 0, requestDurationCount := 0 }

/-- The snapshot after a sequence of cycles, each given by what `GetServers` returned. -/
def runCycles (st : State) (rs : List (Except String (List Instance))) : State :=
  rs.foldl (fun st r => (getTargetsOn st r).1) st

/-! ## Reference definitions for the statements -/

/-- The instance list carried by an answer; an error carries none. -/
def instancesOf (r : Except String DescribeInstancesResponse) : List Instance :=
  match r with
  | .ok response => response.Instances
  | .error _ => []

/-- The request for page `k` together with the answer the API gives when it is request
number `k` of the client; the request sent before the loop is number 0, so the request of
the loop for page `k` is number `k`. -/
def pageCall (filters : List Filter) (api : DescribeInstancesApi) (k : Nat) :
    DescribeInstancesRequest × Except String DescribeInstancesResponse :=
  (describeInstancesRequest filters k 100, api k (describeInstancesRequest filters k 100))

/-- The instance lists of pages `1 .. n`, one after the other. -/
def pagesConcat (filters : List Filter) (api : DescribeInstancesApi) (n : Nat) :
    List Instance :=
  ((List.range' 1 n).map (fun k => instancesOf (pageCall filters api k).2)).flatten

/-- The number of pages `ceil (T / 100)` as a natural number. -/
def pageCount (T : Int) : Nat := ((T + 99) / 100).toNat

/-- The instances returned by the most recent successful cycle of a sequence of cycles,
none when no cycle succeeded. -/
def lastReturned (rs : List (Except String (List Instance))) : List Instance :=
  rs.foldl
    (fun acc r =>
      match r with
      | .ok srvs => srvs
      | .error _ => acc)
    []

/-- The group that stands for a source that is gone: the source and nothing else. -/
def tombstone (k : String) : Group := { Source := k, Targets := [], Labels := [] }

/-- The entry of one comma-separated segment, in the words of the specification: a
segment with exactly one colon gives the text before the colon as key and the text after
it as value; any other segment gives nothing. -/
def segmentEntry (seg : String) : Option DescribeInstancesTag :=
  if seg.data.count ':' = 1 then
    some { Key := String.mk (seg.data.takeWhile (fun c => c != ':')),
           Value := String.mk ((seg.data.dropWhile (fun c => c != ':')).drop 1) }
  else none

/-- The filter string `k1:v1,k2:v2,...` of a list of pairs. -/
def joinPairs (pairs : List (String × String)) : String :=
  String.intercalate "," (pairs.map (fun p => p.1 ++ ":" ++ p.2))

/-- The value of the last tag of the list, in list order, whose key and value are both
non-empty and whose key sanitizes to `name`; `none` when there is no such tag. -/
def lastTagValue (tags : List Tag) (name : String) : Option String :=
  ((tags.filter
      (fun t => decide (t.TagKey ≠ "" ∧ t.TagValue ≠ "" ∧ SanitizeLabelName t.TagKey = name))).getLast?).map
    (fun t => t.TagValue)

/-- The seven labels `createTarget` always sets for an instance with a private address,
in the order of the assignments. -/
def baseLabels (srv : Instance) (privateIp0 : String) : LabelSet :=
  mapAssign
    (mapAssign
      (mapAssign
        (mapAssign
          (mapAssign
            (mapAssign (mapAssign [] ecsLabelInstanceId srv.InstanceId)
              ecsLabelInstanceName srv.InstanceName)
            ecsLabelInstanceType srv.InstanceType)
          ecsLabelPrivateIP privateIp0)
        ecsLabelStatus srv.Status)
      ecsLabelRegionId srv.RegionId)
    ecsLabelVPCID srv.VpcAttributes.VpcId

/-- The labels before the tag loop: the seven base labels and, when the instance has a
public address, the label of the first one. -/
def labelsBeforeTags (srv : Instance) (privateIp0 : String) : LabelSet :=
  match srv.PublicIpAddress.IpAddress with
  | [] => baseLabels srv privateIp0
  | publicIp0 :: _ => mapAssign (baseLabels srv privateIp0) ecsLabelPublicIP publicIp0

/-! ## Concrete inputs -/

/-- An instance with the given id, private and public addresses and tags. -/
def sampleInstance (id : String) (privateIps publicIps : List String) (tags : List Tag) :
    Instance :=
  { InstanceId := id, InstanceName := "web", InstanceType := "ecs.g5.large",
    Status := "Running", RegionId := "cn-beijing",
    VpcAttributes := { VpcId := "vpc-1", PrivateIpAddress := { IpAddress := privateIps } },
    PublicIpAddress := { IpAddress := publicIps }, Tags := { Tag := tags } }

/-- An inventory of 250 records: every request succeeds, pages 1 and 2 carry 100
instances, every other page 50. -/
def apiThreePages : DescribeInstancesApi := fun _ req =>
  .ok { TotalCount := 250,
        Instances := List.replicate (if req.PageNumber ≤ 2 then 100 else 50)
          (sampleInstance "i-1" ["10.0.0.1"] [] []) }

/-- An inventory of 250 records whose page 2 cannot be read. -/
def apiFailsOnPageTwo : DescribeInstancesApi := fun _ req =>
  if req.PageNumber = 2 then .error "timeout"
  else .ok { TotalCount := 250, Instances := [sampleInstance "i-1" ["10.0.0.1"] [] []] }

/-- An inventory that reports the given total and empty pages. -/
def apiTotal (T : Int) : DescribeInstancesApi := fun _ _ =>
  .ok { TotalCount := T, Instances := [] }

/-- A discoverer state with the default configuration and the given snapshot. -/
def stateWith (lasts : SourceSet) : State :=
  { d := { newDiscoverer DefaultSDConfig with lasts := lasts },
    requestFailures := 0, requestDurationCount := 0 }

/-! # Theorems -/

/-! ## Arithmetic of pages -/

theorem wrapInt64_of_range (x : Int) (h0 : -2 ^ 63 ≤ x) (h1 : x < 2 ^ 63) :
    wrapInt64 x = x := by
  unfold wrapInt64
  omega

theorem totalPage_hundred (T : Int) (h0 : 0 ≤ T) (h1 : T < 2 ^ 63) :
    totalPage T 100 = (T + 99) / 100 := by
  unfold totalPage
  have hd : Int.tdiv T 100 = T / 100 := Int.tdiv_eq_ediv h0 (by decide)
  have hm : Int.tmod T 100 = T % 100 := Int.tmod_eq_emod h0 (by decide)
  simp only [hd, hm]
  have hw : wrapInt64 (T / 100) = T / 100 := wrapInt64_of_range _ (by omega) (by omega)
  rw [hw]
  by_cases hz : T % 100 = 0
  · rw [if_pos hz]; omega
  · rw [if_neg hz, wrapInt64_of_range _ (by omega) (by omega)]; omega

theorem pageCount_cast (T : Int) (h0 : 0 ≤ T) : ((pageCount T : Nat) : Int) = (T + 99) / 100 := by
  unfold pageCount
  omega

/-! ## Pagination: `GetServersLoop` and `GetServers` -/

theorem GetServersLoop_all_ok (filters : List Filter) (api : DescribeInstancesApi) (T : Int)
    (h0 : 0 ≤ T) (h1 : T < 2 ^ 63)
    (hall : ∀ n req, ∃ l, api n req = .ok { TotalCount := T, Instances := l }) :
    ∀ (m fuel p : Nat)
      (log : List (DescribeInstancesRequest × Except String DescribeInstancesResponse))
      (response : DescribeInstancesResponse) (servers : List Instance),
      response.TotalCount = T → log.length = p → 1 ≤ p → p + m = pageCount T + 1 →
      m < fuel →
      GetServersLoop filters api fuel log (p : Int) response servers =
        { result := some (.ok (servers ++
            ((List.range' p m).map (fun k => instancesOf (pageCall filters api k).2)).flatten)),
          log := log ++ (List.range' p m).map (pageCall filters api) } := by
  have hN := pageCount_cast T h0
  have hT := totalPage_hundred T h0 h1
  intro m
  induction m with
  | zero =>
    intro fuel p log response servers hr hlen hp hpm hfuel
    obtain ⟨f, rfl⟩ : ∃ f, fuel = f + 1 := ⟨fuel - 1, by omega⟩
    have hcond : ¬ ((p : Int) ≤ totalPage response.TotalCount 100) := by
      rw [hr, hT]; omega
    simp [GetServersLoop, hcond]
  | succ m ih =>
    intro fuel p log response servers hr hlen hp hpm hfuel
    obtain ⟨f, rfl⟩ : ∃ f, fuel = f + 1 := ⟨fuel - 1, by omega⟩
    have hcond : (p : Int) ≤ totalPage response.TotalCount 100 := by
      rw [hr, hT]; omega
    obtain ⟨l, hl⟩ := hall p (describeInstancesRequest filters (p : Int) 100)
    have hw : wrapInt64 ((p : Int) + 1) = ((p + 1 : Nat) : Int) := by
      rw [wrapInt64_of_range _ (by omega) (by omega)]; push_cast; rfl
    have hcall : DescribeInstances filters api log (p : Int) 100 = pageCall filters api p := by
      simp [DescribeInstances, pageCall, hlen]
    have hpc : (pageCall filters api p).2 = .ok { TotalCount := T, Instances := l } := by
      simp [pageCall, hl]
    rw [GetServersLoop, if_pos hcond]
    simp only [hcall, hpc, hw]
    have e1 : (log ++ [pageCall filters api p]).length = p + 1 := by simp [hlen]
    have e3 : p + 1 + m = pageCount T + 1 := by omega
    rw [ih f (p + 1) (log ++ [pageCall filters api p]) { TotalCount := T, Instances := l }
      (servers ++ l) rfl e1 (Nat.le_add_left 1 p) e3 (Nat.lt_of_succ_lt_succ hfuel)]
    simp [List.range'_succ, hpc, instancesOf]

theorem GetServers_all_ok (filters : List Filter) (api : DescribeInstancesApi) (T : Int)
    (h0 : 0 ≤ T) (h1 : T < 2 ^ 63)
    (hall : ∀ n req, ∃ l, api n req = .ok { TotalCount := T, Instances := l })
    (fuel : Nat) (hfuel : pageCount T < fuel) :
    GetServers filters api fuel =
      { result := some (.ok (pagesConcat filters api (pageCount T))),
        log := (describeInstancesRequest filters 1 100,
                api 0 (describeInstancesRequest filters 1 100)) ::
                (List.range' 1 (pageCount T)).map (pageCall filters api) } := by
  obtain ⟨l, hl⟩ := hall 0 (describeInstancesRequest filters 1 100)
  have h := GetServersLoop_all_ok filters api T h0 h1 hall (pageCount T) fuel 1
    [(describeInstancesRequest filters 1 100, api 0 (describeInstancesRequest filters 1 100))]
    { TotalCount := T, Instances := l } [] rfl rfl (le_refl 1) (by omega) hfuel
  simp only [Nat.cast_one] at h
  simp [GetServers, DescribeInstances, hl, pagesConcat] at h ⊢
  simpa [hl] using h

theorem applyFilter_PageNumber (request : DescribeInstancesRequest) (f : Filter) :
    (applyFilter request f).PageNumber = request.PageNumber := by
  unfold applyFilter
  split_ifs <;> rfl

theorem foldl_applyFilter_PageNumber (filters : List Filter) :
    ∀ request : DescribeInstancesRequest,
      (filters.foldl applyFilter request).PageNumber = request.PageNumber := by
  induction filters with
  | nil => intro request; rfl
  | cons f fs ih =>
    intro request
    rw [List.foldl_cons, ih, applyFilter_PageNumber]

theorem describeInstancesRequest_PageNumber (filters : List Filter) (pageNumber pageSize : Int) :
    (describeInstancesRequest filters pageNumber pageSize).PageNumber = pageNumber := by
  unfold describeInstancesRequest
  rw [foldl_applyFilter_PageNumber]

theorem GetServersLoop_failure (filters : List Filter) (api : DescribeInstancesApi) :
    ∀ (fuel : Nat)
      (log : List (DescribeInstancesRequest × Except String DescribeInstancesResponse))
      (pageIndex : Int) (response : DescribeInstancesResponse) (servers : List Instance),
      (∀ c ∈ log, ∀ e, c.2 ≠ .error e) →
      ∀ c ∈ (GetServersLoop filters api fuel log pageIndex response servers).log,
        ∀ e, c.2 = .error e →
        (GetServersLoop filters api fuel log pageIndex response servers).result =
          some (.error e) := by
  intro fuel
  induction fuel with
  | zero =>
    intro log pageIndex response servers hlog c hc e he
    simp only [GetServersLoop] at hc
    exact absurd he (hlog c hc e)
  | succ f ih =>
    intro log pageIndex response servers hlog c hc e he
    rw [GetServersLoop] at hc ⊢
    by_cases hcond : pageIndex ≤ totalPage response.TotalCount 100
    · rw [if_pos hcond] at hc ⊢
      cases hcall : (DescribeInstances filters api log pageIndex 100).2 with
      | error err =>
        simp only [hcall] at hc ⊢
        rcases List.mem_append.1 hc with h | h
        · exact absurd he (hlog c h e)
        · have hce : c = DescribeInstances filters api log pageIndex 100 := by simpa using h
          rw [hce, hcall] at he
          cases he
          rfl
      | ok r =>
        simp only [hcall] at hc ⊢
        refine ih _ _ _ _ ?_ c hc e he
        intro c2 hc2 e2
        rcases List.mem_append.1 hc2 with h | h
        · exact hlog c2 h e2
        · have hce : c2 = DescribeInstances filters api log pageIndex 100 := by simpa using h
          rw [hce, hcall]
          intro hbad
          cases hbad
    · rw [if_neg hcond] at hc ⊢
      exact absurd he (hlog c hc e)

theorem GetServers_failure (filters : List Filter) (api : DescribeInstancesApi) (fuel : Nat)
    (c : DescribeInstancesRequest × Except String DescribeInstancesResponse) (e : String)
    (hc : c ∈ (GetServers filters api fuel).log) (he : c.2 = .error e) :
    (GetServers filters api fuel).result = some (.error e) := by
  unfold GetServers at hc ⊢
  cases hcall : (DescribeInstances filters api [] 1 100).2 with
  | error err =>
    simp only [hcall] at hc ⊢
    have hce : c = DescribeInstances filters api [] 1 100 := by simpa using hc
    rw [hce, hcall] at he
    cases he
    rfl
  | ok r =>
    simp only [hcall] at hc ⊢
    refine GetServersLoop_failure filters api fuel _ _ _ _ ?_ c hc e he
    intro c2 hc2 e2
    have hce : c2 = DescribeInstances filters api [] 1 100 := by simpa using hc2
    rw [hce, hcall]
    intro hbad
    cases hbad

/-! ## C5 and C6: requests issued and instances returned -/

/-- C5, as the code has it: when every page request succeeds and reports the same total
`T` with `0 ≤ T < 2 ^ 63`, `GetServers` sends exactly `1 + ceil (T / 100)` requests: one
for page 1 before the loop, then one for each of the pages `1 .. ceil (T / 100)`. -/
theorem GetServers_request_count (filters : List Filter) (api : DescribeInstancesApi)
    (T : Int) (h0 : 0 ≤ T) (h1 : T < 2 ^ 63)
    (hall : ∀ n req, ∃ l, api n req = .ok { TotalCount := T, Instances := l })
    (fuel : Nat) (hfuel : pageCount T < fuel) :
    ((pageCount T : Nat) : Int) = totalPage T 100 ∧
    (GetServers filters api fuel).log.length = 1 + pageCount T ∧
    (GetServers filters api fuel).log.map (fun c => c.1.PageNumber) =
      1 :: (List.range' 1 (pageCount T)).map (fun k : Nat => (k : Int)) := by
  rw [GetServers_all_ok filters api T h0 h1 hall fuel hfuel]
  refine ⟨?_, ?_, ?_⟩
  · rw [pageCount_cast T h0, totalPage_hundred T h0 h1]
  · simp [Nat.add_comm]
  · simp only [List.map_cons, List.map_map, describeInstancesRequest_PageNumber]
    congr 1
    apply List.map_congr_left
    intro k _
    simp [pageCall, describeInstancesRequest_PageNumber]

/-- Witness of `GetServers_request_count`: 250 records, four requests, for the pages
1, 1, 2, 3. -/
theorem GetServers_request_count_witness :
    pageCount 250 = 3 ∧
    (GetServers [] apiThreePages 4).log.length = 1 + pageCount 250 ∧
    (GetServers [] apiThreePages 4).log.map (fun c => c.1.PageNumber) =
      1 :: (List.range' 1 (pageCount 250)).map (fun k : Nat => (k : Int)) :=
  ⟨by decide,
   (GetServers_request_count [] apiThreePages 250 (by decide) (by decide)
      (fun _ _ => ⟨_, rfl⟩) 4 (by decide)).2⟩

/-- C5 as stated fails: with 250 records `ceil (250 / 100) = 3` but four requests are
sent; with 200 records three are sent, not two; with no record one is sent, not none. -/
theorem GetServers_request_count_counterexample :
    totalPage 250 100 = 3 ∧ (GetServers [] (apiTotal 250) 10).log.length = 4 ∧
    totalPage 200 100 = 2 ∧ (GetServers [] (apiTotal 200) 10).log.length = 3 ∧
    totalPage 0 100 = 0 ∧ (GetServers [] (apiTotal 0) 10).log.length = 1 := by
  decide

/-- C6: when every page request succeeds and reports the same total `T` with
`0 ≤ T < 2 ^ 63`, `totalPage T 100` is `ceil (T / 100)`, and `GetServers` returns, given
enough fuel, the instance lists of the pages `1 .. ceil (T / 100)` one after the other,
each once; for `T = 0` that is the empty list. -/
theorem GetServers_returns_all_pages (filters : List Filter) (api : DescribeInstancesApi)
    (T : Int) (h0 : 0 ≤ T) (h1 : T < 2 ^ 63)
    (hall : ∀ n req, ∃ l, api n req = .ok { TotalCount := T, Instances := l }) :
    totalPage T 100 = (T + 99) / 100 ∧
    (100 * (totalPage T 100 - 1) < T ∧ T ≤ 100 * totalPage T 100) ∧
    ((pageCount T : Nat) : Int) = totalPage T 100 ∧
    (∀ fuel, pageCount T < fuel →
      (GetServers filters api fuel).result =
        some (.ok (pagesConcat filters api (pageCount T)))) ∧
    (pagesConcat filters api (pageCount T)).length =
      ((List.range' 1 (pageCount T)).map
        (fun k => (instancesOf (pageCall filters api k).2).length)).sum ∧
    (T = 0 → pagesConcat filters api (pageCount T) = []) := by
  have hT := totalPage_hundred T h0 h1
  refine ⟨hT, ?_, ?_, ?_, ?_, ?_⟩
  · rw [hT]; omega
  · rw [pageCount_cast T h0, hT]
  · intro fuel hfuel
    rw [GetServers_all_ok filters api T h0 h1 hall fuel hfuel]
  · simp [pagesConcat, List.length_flatten, Function.comp_def]
  · intro hz
    subst hz
    rfl

set_option maxRecDepth 20000 in
/-- Witness of `GetServers_returns_all_pages`: 250 records in pages of 100, 100 and 50
come back as 250 instances. -/
theorem GetServers_returns_all_pages_witness :
    (GetServers [] apiThreePages 4).result =
      some (.ok (pagesConcat [] apiThreePages (pageCount 250))) ∧
    (pagesConcat [] apiThreePages (pageCount 250)).length = 250 :=
  ⟨(GetServers_returns_all_pages [] apiThreePages 250 (by decide) (by decide)
      (fun _ _ => ⟨_, rfl⟩)).2.2.2.1 4 (by decide), by decide⟩

/-! ## C4: a failed page request fails the cycle -/

/-- C4: when any request sent by `GetServers` fails, the first one or a later one,
`GetServers` returns that error and no instance, `getTargets` returns the error and no
batch, the failure counter goes up by exactly one, the discoverer (its snapshot) is
untouched, and `Run` sends nothing. -/
theorem failed_page_fails_cycle (st : State) (api : DescribeInstancesApi) (fuel : Nat)
    (c : DescribeInstancesRequest × Except String DescribeInstancesResponse) (e : String)
    (hc : c ∈ (GetServers st.d.ecsSDConfig.Filters api fuel).log) (he : c.2 = .error e) :
    (GetServers st.d.ecsSDConfig.Filters api fuel).result = some (.error e) ∧
    getTargets st api fuel =
      some ({ d := st.d, requestFailures := st.requestFailures + 1,
              requestDurationCount := st.requestDurationCount + 1 }, .error e) ∧
    RunCycle st api fuel =
      some ({ d := st.d, requestFailures := st.requestFailures + 1,
              requestDurationCount := st.requestDurationCount + 1 }, none) := by
  have h := GetServers_failure st.d.ecsSDConfig.Filters api fuel c e hc he
  refine ⟨h, ?_, ?_⟩
  · simp [getTargets, h, getTargetsOn]
  · simp [RunCycle, getTargets, h, getTargetsOn]

/-- Witness of `failed_page_fails_cycle`: page 2 of 3 fails after the first page was read
twice. -/
theorem failed_page_fails_cycle_witness :
    (GetServers [] apiFailsOnPageTwo 10).log.length = 3 ∧
    (GetServers [] apiFailsOnPageTwo 10).result = some (.error "timeout") ∧
    RunCycle (stateWith ["ecs/i-1", "ecs/i-2"]) apiFailsOnPageTwo 10 =
      some ({ d := (stateWith ["ecs/i-1", "ecs/i-2"]).d, requestFailures := 0 + 1,
              requestDurationCount := 0 + 1 }, none) :=
  have h := failed_page_fails_cycle (stateWith ["ecs/i-1", "ecs/i-2"]) apiFailsOnPageTwo 10
    (describeInstancesRequest [] 2 100, .error "timeout") "timeout"
    (by
      have hlog : (GetServers [] apiFailsOnPageTwo 10).log =
          [(describeInstancesRequest [] 1 100, apiFailsOnPageTwo 0 (describeInstancesRequest [] 1 100)),
           (describeInstancesRequest [] 1 100, apiFailsOnPageTwo 1 (describeInstancesRequest [] 1 100)),
           (describeInstancesRequest [] 2 100, .error "timeout")] := by
        rfl
      show _ ∈ (GetServers [] apiFailsOnPageTwo 10).log
      rw [hlog]
      simp)
    rfl
  ⟨by decide, h.1, h.2.2⟩

/-! ## The cycle: batch and snapshot -/

theorem createTarget_Source (d : ecsDiscoverer) (srv : Instance) :
    (createTarget d srv).Source = "ecs/" ++ srv.InstanceId := by
  unfold createTarget
  split <;> rfl

theorem createTarget_no_private_ip (d : ecsDiscoverer) (srv : Instance)
    (h : srv.VpcAttributes.PrivateIpAddress.IpAddress = []) :
    createTarget d srv = tombstone ("ecs/" ++ srv.InstanceId) := by
  unfold createTarget
  rw [h]
  rfl

theorem createTarget_Targets_ne_nil (d : ecsDiscoverer) (srv : Instance)
    (h : srv.VpcAttributes.PrivateIpAddress.IpAddress ≠ []) :
    (createTarget d srv).Targets ≠ [] := by
  unfold createTarget
  split
  · rename_i heq
    exact absurd heq h
  · simp

theorem addServers_eq (d : ecsDiscoverer) (srvs : List Instance) :
    ∀ (current : SourceSet) (tgs : Batch),
      addServers d srvs current tgs =
        (srvs.foldl (fun c s => setInsert c ("ecs/" ++ s.InstanceId)) current,
         tgs ++ srvs.map (fun s => some (createTarget d s))) := by
  induction srvs with
  | nil => intro current tgs; simp [addServers]
  | cons s rest ih =>
    intro current tgs
    have h := ih (setInsert current ("ecs/" ++ s.InstanceId)) (tgs ++ [some (createTarget d s)])
    simp only [addServers, List.foldl_cons, createTarget_Source] at h ⊢
    rw [h]
    simp

theorem mem_setInsert (m : SourceSet) (k x : String) :
    x ∈ setInsert m k ↔ x ∈ m ∨ x = k := by
  unfold setInsert
  split_ifs with h
  · constructor
    · intro hx; exact Or.inl hx
    · rintro (hx | hx)
      · exact hx
      · rw [hx]; exact h
  · simp

theorem nodup_setInsert (m : SourceSet) (k : String) (h : m.Nodup) :
    (setInsert m k).Nodup := by
  unfold setInsert
  split_ifs with hk
  · exact h
  · rw [List.nodup_append]
    refine ⟨h, List.nodup_singleton k, ?_⟩
    intro a ha hb
    have : a = k := by simpa using hb
    rw [this] at ha
    exact hk ha

theorem mem_foldl_setInsert (srvs : List Instance) :
    ∀ (current : SourceSet) (x : String),
      x ∈ srvs.foldl (fun c s => setInsert c ("ecs/" ++ s.InstanceId)) current ↔
        x ∈ current ∨ ∃ s ∈ srvs, x = "ecs/" ++ s.InstanceId := by
  induction srvs with
  | nil => intro current x; simp
  | cons s rest ih =>
    intro current x
    rw [List.foldl_cons, ih, mem_setInsert]
    constructor
    · rintro ((h | h) | ⟨t, ht, hx⟩)
      · exact Or.inl h
      · exact Or.inr ⟨s, List.mem_cons_self _ _, h⟩
      · exact Or.inr ⟨t, List.mem_cons_of_mem _ ht, hx⟩
    · rintro (h | ⟨t, ht, hx⟩)
      · exact Or.inl (Or.inl h)
      · rcases List.mem_cons.1 ht with h | h
        · rw [h] at hx; exact Or.inl (Or.inr hx)
        · exact Or.inr ⟨t, h, hx⟩

theorem nodup_foldl_setInsert (srvs : List Instance) :
    ∀ (current : SourceSet), current.Nodup →
      (srvs.foldl (fun c s => setInsert c ("ecs/" ++ s.InstanceId)) current).Nodup := by
  induction srvs with
  | nil => intro current h; exact h
  | cons s rest ih =>
    intro current h
    rw [List.foldl_cons]
    exact ih _ (nodup_setInsert _ _ h)

theorem addDeleted_eq (current : SourceSet) (lasts : SourceSet) :
    ∀ (tgs : Batch),
      addDeleted lasts current tgs =
        tgs ++ (lasts.filter (fun k => decide (k ∉ current))).map (fun k => some (tombstone k)) := by
  induction lasts with
  | nil => intro tgs; simp [addDeleted]
  | cons k rest ih =>
    intro tgs
    have h1 := ih tgs
    have h2 := ih (tgs ++ [some (tombstone k)])
    simp only [addDeleted, List.foldl_cons] at h1 h2 ⊢
    by_cases hk : k ∈ current
    · rw [if_pos hk, h1]
      simp [hk]
    · rw [if_neg hk]
      simp only [tombstone] at h2 ⊢
      rw [h2]
      simp [hk]

theorem getTargetsOn_ok (st : State) (srvs : List Instance) :
    getTargetsOn st (.ok srvs) =
      ({ d := { st.d with
                lasts := srvs.foldl (fun c s => setInsert c ("ecs/" ++ s.InstanceId)) [] },
         requestFailures := st.requestFailures,
         requestDurationCount := st.requestDurationCount + 1 },
       .ok (List.replicate srvs.length none ++ srvs.map (fun s => some (createTarget st.d s)) ++
         (st.d.lasts.filter
            (fun k => decide (k ∉ srvs.foldl (fun c s => setInsert c ("ecs/" ++ s.InstanceId)) []))).map
            (fun k => some (tombstone k)))) := by
  simp only [getTargetsOn, addServers_eq, addDeleted_eq]

/-! ## C1, C2, C3: tombstones, shape of the batch, snapshot -/

/-- C1, as the code has it: after a successful inventory call the batch holds the
tombstone of every source of `lasts` that is not `"ecs/" ++ InstanceId` of a returned
instance, and every group of the batch without targets and without labels is such a
tombstone or the group of a returned instance that has no private IP address. -/
theorem getTargets_tombstones (st : State) (srvs : List Instance) :
    ∃ batch : Batch, (getTargetsOn st (.ok srvs)).2 = .ok batch ∧
      (∀ k ∈ st.d.lasts, (∀ s ∈ srvs, k ≠ "ecs/" ++ s.InstanceId) →
        some (tombstone k) ∈ batch) ∧
      (∀ g : Group, some g ∈ batch → g.Targets = [] → g.Labels = [] →
        (g = tombstone g.Source ∧ g.Source ∈ st.d.lasts ∧
          ∀ s ∈ srvs, g.Source ≠ "ecs/" ++ s.InstanceId) ∨
        (∃ s ∈ srvs, s.VpcAttributes.PrivateIpAddress.IpAddress = [] ∧
          g = tombstone ("ecs/" ++ s.InstanceId))) := by
  refine ⟨_, by rw [getTargetsOn_ok], ?_, ?_⟩
  · intro k hk hne
    apply List.mem_append_right
    refine List.mem_map.2 ⟨k, ?_, rfl⟩
    rw [List.mem_filter]
    refine ⟨hk, ?_⟩
    rw [decide_eq_true_eq, mem_foldl_setInsert]
    rintro (h | ⟨s, hs, hx⟩)
    · exact absurd h (List.not_mem_nil k)
    · exact hne s hs hx
  · intro g hg hT hL
    rcases List.mem_append.1 hg with h | h
    · rcases List.mem_append.1 h with h | h
      · have := (List.mem_replicate.1 h).2
        cases this
      · obtain ⟨s, hs, hgs⟩ := List.mem_map.1 h
        have hgs : createTarget st.d s = g := by simpa using hgs
        right
        refine ⟨s, hs, ?_⟩
        by_cases hp : s.VpcAttributes.PrivateIpAddress.IpAddress = []
        · exact ⟨hp, by rw [← hgs, createTarget_no_private_ip _ _ hp]⟩
        · exact absurd (hgs ▸ hT) (createTarget_Targets_ne_nil st.d s hp)
    · obtain ⟨k, hk, hgk⟩ := List.mem_map.1 h
      have hgk : tombstone k = g := by simpa using hgk
      rw [List.mem_filter, decide_eq_true_eq, mem_foldl_setInsert] at hk
      left
      subst hgk
      refine ⟨rfl, hk.1, ?_⟩
      intro s hs hx
      exact hk.2 (Or.inr ⟨s, hs, hx⟩)

/-- C1 as stated fails: with an empty snapshot and one returned instance that has no
private IP address, the batch holds a group without targets and without labels whose
source was not in the snapshot. -/
theorem getTargets_tombstones_counterexample :
    ∃ batch : Batch,
      (getTargetsOn (stateWith []) (.ok [sampleInstance "i-9" [] [] []])).2 = .ok batch ∧
      ∃ g : Group, some g ∈ batch ∧ g.Targets = [] ∧ g.Labels = [] ∧
        g.Source = "ecs/" ++ (sampleInstance "i-9" [] [] []).InstanceId ∧
        g.Source ∉ (stateWith []).d.lasts :=
  ⟨[none, some (tombstone "ecs/i-9")], rfl, tombstone "ecs/i-9", by decide, rfl, rfl,
    by decide, by decide⟩

/-- Witness of `getTargets_tombstones`: with the snapshot `ecs/i-1`, `ecs/i-2` and a cycle
that returns only `i-1`, the batch holds the tombstone of `ecs/i-2`. -/
theorem getTargets_tombstones_witness :
    ∃ batch : Batch,
      (getTargetsOn (stateWith ["ecs/i-1", "ecs/i-2"])
        (.ok [sampleInstance "i-1" ["10.0.0.1"] [] []])).2 = .ok batch ∧
      some (tombstone "ecs/i-2") ∈ batch := by
  obtain ⟨batch, hb, htomb, _⟩ := getTargets_tombstones (stateWith ["ecs/i-1", "ecs/i-2"])
    [sampleInstance "i-1" ["10.0.0.1"] [] []]
  exact ⟨batch, hb, htomb "ecs/i-2" (by decide) (by decide)⟩

/-- C2, the code at the scenario of the claim: with the snapshot `ecs/i-1`, `ecs/i-2` and
a cycle that returns only `i-1`, the batch has three entries, not two: a nil entry, the
live group of `i-1` and the tombstone of `ecs/i-2`. -/
theorem getTargets_batch_starts_with_nil :
    (getTargetsOn (stateWith ["ecs/i-1", "ecs/i-2"])
        (.ok [sampleInstance "i-1" ["10.0.0.1"] [] []])).2 =
      .ok [none,
           some (createTarget (stateWith ["ecs/i-1", "ecs/i-2"]).d
             (sampleInstance "i-1" ["10.0.0.1"] [] [])),
           some (tombstone "ecs/i-2")] ∧
    (getTargetsOn (stateWith ["ecs/i-1", "ecs/i-2"])
        (.ok [sampleInstance "i-1" ["10.0.0.1"] [] []])).1.d.lasts = ["ecs/i-1"] ∧
    ∀ (st : State) (srvs : List Instance), ∃ batch : Batch,
      (getTargetsOn st (.ok srvs)).2 = .ok batch ∧
      batch.take srvs.length = List.replicate srvs.length none ∧
      batch.length = 2 * srvs.length +
        (st.d.lasts.filter (fun k => decide (∀ s ∈ srvs, k ≠ "ecs/" ++ s.InstanceId))).length := by
  refine ⟨rfl, rfl, ?_⟩
  intro st srvs
  refine ⟨_, by rw [getTargetsOn_ok], ?_, ?_⟩
  · rw [List.append_assoc, List.take_append_of_le_length (by simp)]
    simp
  · have hfilter : st.d.lasts.filter
        (fun k => decide (k ∉ srvs.foldl (fun c s => setInsert c ("ecs/" ++ s.InstanceId)) [])) =
        st.d.lasts.filter (fun k => decide (∀ s ∈ srvs, k ≠ "ecs/" ++ s.InstanceId)) := by
      apply List.filter_congr
      intro k _
      simp [mem_foldl_setInsert]
    rw [hfilter]
    simp
    omega

/-- C3: from the empty snapshot, after any sequence of cycles the snapshot is a
duplicate-free list of exactly the sources `"ecs/" ++ InstanceId` of the instances
returned by the most recent successful cycle (none when no cycle succeeded), and a failed
cycle leaves the discoverer, so the snapshot, as it was. -/
theorem snapshot_invariant (conf : SDConfig) (rs : List (Except String (List Instance))) :
    (∀ k : String, k ∈ (runCycles (initialState conf) rs).d.lasts ↔
      ∃ s ∈ lastReturned rs, k = "ecs/" ++ s.InstanceId) ∧
    (runCycles (initialState conf) rs).d.lasts.Nodup ∧
    (∀ (st : State) (e : String), (getTargetsOn st (.error e)).1.d = st.d) := by
  refine ⟨?_, ?_, fun st e => rfl⟩
  · induction rs using List.reverseRecOn with
    | nil => intro k; simp [runCycles, initialState, newDiscoverer, lastReturned]
    | append_singleton rs r ih =>
      intro k
      cases r with
      | error e =>
        have h1 : (runCycles (initialState conf) (rs ++ [Except.error e])).d.lasts =
            (runCycles (initialState conf) rs).d.lasts := by
          simp [runCycles, List.foldl_append, getTargetsOn]
        have h2 : lastReturned (rs ++ [Except.error e]) = lastReturned rs := by
          simp [lastReturned, List.foldl_append]
        rw [h1, h2]
        exact ih k
      | ok srvs =>
        have h1 : (runCycles (initialState conf) (rs ++ [Except.ok srvs])).d.lasts =
            srvs.foldl (fun c s => setInsert c ("ecs/" ++ s.InstanceId)) [] := by
          simp only [runCycles, List.foldl_append, List.foldl_cons, List.foldl_nil,
            getTargetsOn_ok]
        have h2 : lastReturned (rs ++ [Except.ok srvs]) = srvs := by
          simp [lastReturned, List.foldl_append]
        rw [h1, h2, mem_foldl_setInsert]
        simp
  · induction rs using List.reverseRecOn with
    | nil => simp [runCycles, initialState, newDiscoverer]
    | append_singleton rs r ih =>
      cases r with
      | error e =>
        have h1 : (runCycles (initialState conf) (rs ++ [Except.error e])).d.lasts =
            (runCycles (initialState conf) rs).d.lasts := by
          simp [runCycles, List.foldl_append, getTargetsOn]
        rw [h1]
        exact ih
      | ok srvs =>
        have h1 : (runCycles (initialState conf) (rs ++ [Except.ok srvs])).d.lasts =
            srvs.foldl (fun c s => setInsert c ("ecs/" ++ s.InstanceId)) [] := by
          simp only [runCycles, List.foldl_append, List.foldl_cons, List.foldl_nil,
            getTargetsOn_ok]
        rw [h1]
        exact nodup_foldl_setInsert srvs [] List.nodup_nil

/-- Witness of `snapshot_invariant`: two instances, a failed cycle, one instance, a
failed cycle; the snapshot is the source of the one instance. -/
theorem snapshot_invariant_witness :
    "ecs/i-1" ∈ (runCycles (initialState DefaultSDConfig)
      [.ok [sampleInstance "i-1" ["10.0.0.1"] [] [], sampleInstance "i-2" ["10.0.0.2"] [] []],
       .error "timeout", .ok [sampleInstance "i-1" ["10.0.0.1"] [] []],
       .error "timeout"]).d.lasts ∧
    "ecs/i-2" ∉ (runCycles (initialState DefaultSDConfig)
      [.ok [sampleInstance "i-1" ["10.0.0.1"] [] [], sampleInstance "i-2" ["10.0.0.2"] [] []],
       .error "timeout", .ok [sampleInstance "i-1" ["10.0.0.1"] [] []],
       .error "timeout"]).d.lasts :=
  have h := (snapshot_invariant DefaultSDConfig
    [.ok [sampleInstance "i-1" ["10.0.0.1"] [] [], sampleInstance "i-2" ["10.0.0.2"] [] []],
     .error "timeout", .ok [sampleInstance "i-1" ["10.0.0.1"] [] []],
     .error "timeout"]).1
  ⟨(h "ecs/i-1").2 ⟨sampleInstance "i-1" ["10.0.0.1"] [] [], by decide, rfl⟩,
   fun hmem => by
     obtain ⟨s, hs, hk⟩ := (h "ecs/i-2").1 hmem
     have hs2 : s = sampleInstance "i-1" ["10.0.0.1"] [] [] := by
       simpa [lastReturned] using hs
     rw [hs2] at hk
     exact absurd hk (by decide)⟩

/-! ## C10: the tick period -/

/-- C10, the code at the default configuration: the refresh interval is 60 seconds,
held as 60000000000 nanoseconds, and the period that `Run` hands to the timer is
4659767778871345152 nanoseconds, which is not the refresh interval. -/
theorem RunTickPeriod_default :
    (newDiscoverer DefaultSDConfig).refresh = 60 * Second ∧
    RunTickPeriod (newDiscoverer DefaultSDConfig) = 4659767778871345152 ∧
    RunTickPeriod (newDiscoverer DefaultSDConfig) ≠ (newDiscoverer DefaultSDConfig).refresh := by
  decide

/-! ## C7: `splitTag` -/

theorem length_splitOn (c : Char) (l : List Char) :
    (List.splitOn c l).length = l.count c + 1 := by
  induction l with
  | nil => simp
  | cons x xs ih =>
    have ih2 : (List.splitOnP (fun y => y == c) xs).length = xs.count c + 1 := ih
    show (List.splitOnP (fun y => y == c) (x :: xs)).length = _
    rw [List.splitOnP_cons, List.count_cons]
    by_cases hx : (x == c) = true
    · simp [hx, ih2]
    · simp [hx, ih2]

theorem splitOn_of_not_mem (c : Char) (l : List Char) (h : c ∉ l) :
    List.splitOn c l = [l] := by
  apply List.splitOnP_eq_single
  intro x hx hxc
  have : x = c := by simpa using hxc
  exact h (this ▸ hx)

theorem splitOn_of_count_one (c : Char) (l : List Char) (h : l.count c = 1) :
    List.splitOn c l =
      [l.takeWhile (fun y => y != c), (l.dropWhile (fun y => y != c)).drop 1] := by
  induction l with
  | nil => simp at h
  | cons x xs ih =>
    show List.splitOnP (fun y => y == c) (x :: xs) = _
    rw [List.splitOnP_cons]
    by_cases hx : x = c
    · subst hx
      have hcount : xs.count x = 0 := by simpa [List.count_cons] using h
      have hnot : x ∉ xs := List.count_eq_zero.1 hcount
      have hs : List.splitOnP (fun y => y == x) xs = [xs] := splitOn_of_not_mem x xs hnot
      simp [hs]
    · have hcount : xs.count c = 1 := by simpa [List.count_cons, hx] using h
      have hs : List.splitOnP (fun y => y == c) xs =
          [xs.takeWhile (fun y => y != c), (xs.dropWhile (fun y => y != c)).drop 1] :=
        ih hcount
      simp [hx, hs, List.takeWhile_cons, List.dropWhile_cons]

theorem segment_match (t : String) :
    (match Split t ':' with
      | [k, v] => some ({ Key := k, Value := v } : DescribeInstancesTag)
      | _ => none) = segmentEntry t := by
  unfold segmentEntry
  by_cases h : t.data.count ':' = 1
  · rw [if_pos h]
    simp [Split, splitOn_of_count_one ':' t.data h]
  · rw [if_neg h]
    split
    · rename_i k v heq
      have hlen := congrArg List.length heq
      simp [Split, length_splitOn] at hlen
      exact absurd hlen h
    · rfl

theorem foldl_segments (segs : List String) :
    ∀ ret : List DescribeInstancesTag,
      segs.foldl
        (fun ret t =>
          match Split t ':' with
          | [k, v] => ret ++ [{ Key := k, Value := v }]
          | _ => ret)
        ret = ret ++ segs.filterMap segmentEntry := by
  induction segs with
  | nil => intro ret; simp
  | cons t rest ih =>
    intro ret
    rw [List.foldl_cons, ih, List.filterMap_cons, ← segment_match t]
    split <;> simp

theorem splitTag_eq_filterMap (tag : String) :
    splitTag tag = (Split tag ',').filterMap segmentEntry := by
  unfold splitTag
  rw [foldl_segments]
  simp

theorem filterMap_some_eq_map {α β : Type} (f : α → β) (l : List α) :
    l.filterMap (fun a => some (f a)) = l.map f := by
  induction l with
  | nil => rfl
  | cons a rest ih => simp [List.filterMap_cons, ih]

theorem intercalate_go_data (s : String) (l : List String) :
    ∀ acc : String,
      (String.intercalate.go acc s l).data =
        acc.data ++ (l.map (fun a => s.data ++ a.data)).flatten := by
  induction l with
  | nil => intro acc; simp [String.intercalate.go]
  | cons a rest ih =>
    intro acc
    rw [String.intercalate.go, ih]
    simp [String.data_append, List.append_assoc]

theorem list_intercalate_cons (sep : List Char) (xs : List (List Char)) :
    ∀ x : List Char,
      List.intercalate sep (x :: xs) = x ++ (xs.map (fun a => sep ++ a)).flatten := by
  induction xs with
  | nil => intro x; simp [List.intercalate]
  | cons y rest ih =>
    intro x
    have h := ih y
    simp only [List.intercalate, List.intersperse_cons₂, List.flatten_cons, List.map_cons] at h ⊢
    rw [h]
    simp

theorem intercalate_data (s : String) (l : List String) :
    (String.intercalate s l).data = List.intercalate s.data (l.map String.data) := by
  cases l with
  | nil => rfl
  | cons a rest =>
    rw [String.intercalate, intercalate_go_data, List.map_cons, list_intercalate_cons]
    simp [List.map_map, Function.comp_def]

theorem Split_intercalate (segs : List String) (hne : segs ≠ [])
    (hsep : ∀ s ∈ segs, ',' ∉ s.data) :
    Split (String.intercalate "," segs) ',' = segs := by
  unfold Split
  rw [intercalate_data]
  have hd : (",").data = [','] := rfl
  rw [hd, List.splitOn_intercalate (segs.map String.data) ',']
  · simp [List.map_map, Function.comp_def]
  · intro l hl
    obtain ⟨s, hs, rfl⟩ := List.mem_map.1 hl
    exact hsep s hs
  · simpa using hne

theorem segmentEntry_pair (k v : String) (hk : ':' ∉ k.data) (hv : ':' ∉ v.data) :
    segmentEntry (k ++ ":" ++ v) = some { Key := k, Value := v } := by
  have hd : (k ++ ":" ++ v).data = k.data ++ ':' :: v.data := by
    simp [String.data_append]
  have hcount : (k.data ++ ':' :: v.data).count ':' = 1 := by
    rw [List.count_append, List.count_cons, List.count_eq_zero.2 hk, List.count_eq_zero.2 hv]
    simp
  have htake : (k.data ++ ':' :: v.data).takeWhile (fun c => c != ':') = k.data := by
    rw [List.takeWhile_append_of_pos]
    · simp
    · intro c hc
      have : c ≠ ':' := fun h => hk (h ▸ hc)
      simpa using this
  have hdrop : (k.data ++ ':' :: v.data).dropWhile (fun c => c != ':') = ':' :: v.data := by
    rw [List.dropWhile_append_of_pos]
    · simp
    · intro c hc
      have : c ≠ ':' := fun h => hk (h ▸ hc)
      simpa using this
  unfold segmentEntry
  rw [hd, if_pos hcount, htake, hdrop]
  rfl

/-- C7: `splitTag` returns, in order, one entry for each comma-separated segment with
exactly one colon (key before the colon, value after it) and nothing for any other
segment; the segments of a string joined from comma-free segments are those segments; and
the pairs joined as `k1:v1,k2:v2,...`, with keys and values free of `,` and `:`, come back
exactly. -/
theorem splitTag_spec :
    (∀ tag : String, splitTag tag = (Split tag ',').filterMap segmentEntry) ∧
    (∀ segs : List String, segs ≠ [] → (∀ s ∈ segs, ',' ∉ s.data) →
      splitTag (String.intercalate "," segs) = segs.filterMap segmentEntry) ∧
    (∀ pairs : List (String × String),
      (∀ p ∈ pairs, ',' ∉ p.1.data ∧ ':' ∉ p.1.data ∧ ',' ∉ p.2.data ∧ ':' ∉ p.2.data) →
      splitTag (joinPairs pairs) =
        pairs.map (fun p => ({ Key := p.1, Value := p.2 } : DescribeInstancesTag))) := by
  refine ⟨splitTag_eq_filterMap, ?_, ?_⟩
  · intro segs hne hsep
    rw [splitTag_eq_filterMap, Split_intercalate segs hne hsep]
  · intro pairs hp
    cases hpairs : pairs with
    | nil => rfl
    | cons p0 rest =>
      rw [← hpairs]
      have hne : pairs.map (fun p => p.1 ++ ":" ++ p.2) ≠ [] := by
        rw [hpairs]; simp
      have hsep : ∀ s ∈ pairs.map (fun p => p.1 ++ ":" ++ p.2), ',' ∉ s.data := by
        intro s hs
        obtain ⟨p, hpm, rfl⟩ := List.mem_map.1 hs
        obtain ⟨h1, _, h3, _⟩ := hp p hpm
        simp [String.data_append, h1, h3]
      unfold joinPairs
      rw [splitTag_eq_filterMap, Split_intercalate _ hne hsep, List.filterMap_map]
      have hfm : pairs.filterMap (segmentEntry ∘ fun p => p.1 ++ ":" ++ p.2) =
          pairs.filterMap
            (fun p => some ({ Key := p.1, Value := p.2 } : DescribeInstancesTag)) := by
        apply List.filterMap_congr
        intro p hpm
        obtain ⟨_, h2, _, h4⟩ := hp p hpm
        exact segmentEntry_pair p.1 p.2 h2 h4
      rw [hfm]
      exact filterMap_some_eq_map _ pairs

/-- Witness of `splitTag_spec`: a filter with two good pairs and, between them, segments
without a colon, with two colons and empty. -/
theorem splitTag_spec_witness :
    splitTag (String.intercalate "," ["env:prod", "broken", "a:b:c", "", "team:core"]) =
      [{ Key := "env", Value := "prod" }, { Key := "team", Value := "core" }] ∧
    splitTag (joinPairs [("env", "prod"), ("team", "core")]) =
      [{ Key := "env", Value := "prod" }, { Key := "team", Value := "core" }] :=
  ⟨(splitTag_spec.2.1 ["env:prod", "broken", "a:b:c", "", "team:core"] (by decide)
      (by decide)).trans (by decide),
   splitTag_spec.2.2 [("env", "prod"), ("team", "core")] (by decide)⟩

/-! ## Label sets -/

theorem lookup_map_ne (k v k' : String) (h : k' ≠ k) (m : LabelSet) :
    List.lookup k' (m.map (fun e => if e.1 = k then (k, v) else e)) = List.lookup k' m := by
  induction m with
  | nil => rfl
  | cons e rest ih =>
    obtain ⟨a, b⟩ := e
    by_cases ha : a = k
    · subst ha
      have h1 : (k' == a) = false := by simpa using h
      simp [List.lookup_cons, h1, ih]
    · by_cases hk : k' = a
      · subst hk
        simp [List.lookup_cons, ha]
      · have h1 : (k' == a) = false := by simpa using hk
        simp [List.lookup_cons, ha, h1, ih]

theorem mapAssign_cons_eq (m : LabelSet) (k b v : String) :
    mapAssign ((k, b) :: m) k v = (k, v) :: m.map (fun e => if e.1 = k then (k, v) else e) := by
  simp [mapAssign]

theorem mapAssign_cons_ne (m : LabelSet) (a b k v : String) (h : a ≠ k) :
    mapAssign ((a, b) :: m) k v = (a, b) :: mapAssign m k v := by
  unfold mapAssign
  by_cases hany : (m.any (fun e => e.1 == k)) = true
  · simp [h, hany]
  · simp [h, hany]

theorem mapLookup_mapAssign (k v k' : String) (m : LabelSet) :
    mapLookup (mapAssign m k v) k' = if k' = k then some v else mapLookup m k' := by
  unfold mapLookup
  induction m with
  | nil =>
    by_cases hk : k' = k
    · simp [mapAssign, List.lookup_cons, hk]
    · have h1 : (k' == k) = false := by simpa using hk
      simp [mapAssign, List.lookup_cons, hk, h1]
  | cons e rest ih =>
    obtain ⟨a, b⟩ := e
    by_cases ha : a = k
    · subst ha
      rw [mapAssign_cons_eq]
      by_cases hk : k' = a
      · simp [List.lookup_cons, hk]
      · have h1 : (k' == a) = false := by simpa using hk
        simp [List.lookup_cons, hk, h1, lookup_map_ne a v k' hk]
    · rw [mapAssign_cons_ne _ _ _ _ _ ha]
      by_cases hka : k' = a
      · subst hka
        simp [List.lookup_cons, ha]
      · have h1 : (k' == a) = false := by simpa using hka
        simp [List.lookup_cons, h1, ih]

theorem string_append_left_cancel (p a b : String) : p ++ a = p ++ b ↔ a = b := by
  rw [String.ext_iff, String.ext_iff, String.data_append, String.data_append]
  exact List.append_right_inj p.data

theorem tag_label_ne (b name : String) (hb : ¬ ecsLabelTag.data <+: b.data) :
    ecsLabelTag ++ name ≠ b := by
  intro h
  apply hb
  rw [← h, String.data_append]
  exact List.prefix_append _ _

theorem getLast_filter_cons {α : Type} (q : α → Bool) (t : α) (rest : List α) :
    ((t :: rest).filter q).getLast? =
      ((rest.filter q).getLast?).or (if q t = true then some t else none) := by
  have h : t :: rest = [t] ++ rest := rfl
  rw [h, List.filter_append, List.getLast?_append]
  by_cases hq : q t = true
  · simp [hq]
  · simp [hq]

theorem mapLookup_tagLabels (name : String) (tags : List Tag) :
    ∀ labels : LabelSet,
      mapLookup (tagLabels labels tags) (ecsLabelTag ++ name) =
        (lastTagValue tags name).or (mapLookup labels (ecsLabelTag ++ name)) := by
  induction tags with
  | nil => intro labels; simp [tagLabels, lastTagValue]
  | cons t rest ih =>
    intro labels
    have hstep : tagLabels labels (t :: rest) =
        tagLabels
          (if t.TagKey = "" ∨ t.TagValue = "" then labels
           else mapAssign labels (ecsLabelTag ++ SanitizeLabelName t.TagKey) t.TagValue) rest := by
      simp [tagLabels]
    rw [hstep, ih]
    unfold lastTagValue
    rw [getLast_filter_cons]
    generalize (List.filter
      (fun t => decide (t.TagKey ≠ "" ∧ t.TagValue ≠ "" ∧ SanitizeLabelName t.TagKey = name))
      rest).getLast? = o
    by_cases hq : t.TagKey ≠ "" ∧ t.TagValue ≠ "" ∧ SanitizeLabelName t.TagKey = name
    · have hskip : ¬ (t.TagKey = "" ∨ t.TagValue = "") := by
        rintro (h | h)
        · exact hq.1 h
        · exact hq.2.1 h
      have hd : decide (t.TagKey ≠ "" ∧ t.TagValue ≠ "" ∧ SanitizeLabelName t.TagKey = name) = true :=
        decide_eq_true hq
      have hname : ecsLabelTag ++ name = ecsLabelTag ++ SanitizeLabelName t.TagKey := by
        rw [hq.2.2]
      rw [if_neg hskip, mapLookup_mapAssign, if_pos hname, hd, if_pos rfl]
      cases o <;> rfl
    · have hd : decide (t.TagKey ≠ "" ∧ t.TagValue ≠ "" ∧ SanitizeLabelName t.TagKey = name) = false :=
        decide_eq_false hq
      have hsame : mapLookup
          (if t.TagKey = "" ∨ t.TagValue = "" then labels
           else mapAssign labels (ecsLabelTag ++ SanitizeLabelName t.TagKey) t.TagValue)
          (ecsLabelTag ++ name) = mapLookup labels (ecsLabelTag ++ name) := by
        by_cases hskip : t.TagKey = "" ∨ t.TagValue = ""
        · rw [if_pos hskip]
        · rw [if_neg hskip, mapLookup_mapAssign]
          have hne : ecsLabelTag ++ name ≠ ecsLabelTag ++ SanitizeLabelName t.TagKey := by
            intro h
            rw [string_append_left_cancel] at h
            apply hq
            exact ⟨fun h1 => hskip (Or.inl h1), fun h2 => hskip (Or.inr h2), h.symm⟩
          rw [if_neg hne]
      rw [hsame, hd]
      cases o <;> rfl

theorem lookup_assign_ne (m : LabelSet) (k v k' : String) (h : k' ≠ k) :
    mapLookup (mapAssign m k v) k' = mapLookup m k' := by
  rw [mapLookup_mapAssign, if_neg h]

theorem lookup_assign_eq (m : LabelSet) (k v : String) :
    mapLookup (mapAssign m k v) k = some v := by
  rw [mapLookup_mapAssign, if_pos rfl]

theorem mapLookup_tagLabels_other (n : String) (hn : ¬ ecsLabelTag.data <+: n.data)
    (tags : List Tag) :
    ∀ labels : LabelSet, mapLookup (tagLabels labels tags) n = mapLookup labels n := by
  induction tags with
  | nil => intro labels; rfl
  | cons t rest ih =>
    intro labels
    have hstep : tagLabels labels (t :: rest) =
        tagLabels
          (if t.TagKey = "" ∨ t.TagValue = "" then labels
           else mapAssign labels (ecsLabelTag ++ SanitizeLabelName t.TagKey) t.TagValue) rest := by
      simp [tagLabels]
    rw [hstep, ih]
    by_cases hskip : t.TagKey = "" ∨ t.TagValue = ""
    · rw [if_pos hskip]
    · rw [if_neg hskip, lookup_assign_ne _ _ _ _ (tag_label_ne n _ hn).symm]

theorem createTarget_eq (d : ecsDiscoverer) (srv : Instance) (ip : String) (rest : List String)
    (h : srv.VpcAttributes.PrivateIpAddress.IpAddress = ip :: rest) :
    createTarget d srv =
      { Source := "ecs/" ++ srv.InstanceId,
        Targets := [[(AddressLabel, JoinHostPort ip (fmtInt d.port))]],
        Labels := tagLabels (labelsBeforeTags srv ip) srv.Tags.Tag } := by
  unfold createTarget labelsBeforeTags baseLabels
  rw [h]

theorem mapLookup_baseLabels (srv : Instance) (ip : String) :
    mapLookup (baseLabels srv ip) ecsLabelInstanceId = some srv.InstanceId ∧
    mapLookup (baseLabels srv ip) ecsLabelInstanceName = some srv.InstanceName ∧
    mapLookup (baseLabels srv ip) ecsLabelInstanceType = some srv.InstanceType ∧
    mapLookup (baseLabels srv ip) ecsLabelPrivateIP = some ip ∧
    mapLookup (baseLabels srv ip) ecsLabelStatus = some srv.Status ∧
    mapLookup (baseLabels srv ip) ecsLabelRegionId = some srv.RegionId ∧
    mapLookup (baseLabels srv ip) ecsLabelVPCID = some srv.VpcAttributes.VpcId ∧
    mapLookup (baseLabels srv ip) ecsLabelPublicIP = none := by
  unfold baseLabels
  refine ⟨?_, ?_, ?_, ?_, ?_, ?_, ?_, ?_⟩
  · rw [lookup_assign_ne _ _ _ _ (by decide), lookup_assign_ne _ _ _ _ (by decide),
      lookup_assign_ne _ _ _ _ (by decide), lookup_assign_ne _ _ _ _ (by decide),
      lookup_assign_ne _ _ _ _ (by decide), lookup_assign_ne _ _ _ _ (by decide),
      lookup_assign_eq]
  · rw [lookup_assign_ne _ _ _ _ (by decide), lookup_assign_ne _ _ _ _ (by decide),
      lookup_assign_ne _ _ _ _ (by decide), lookup_assign_ne _ _ _ _ (by decide),
      lookup_assign_ne _ _ _ _ (by decide), lookup_assign_eq]
  · rw [lookup_assign_ne _ _ _ _ (by decide), lookup_assign_ne _ _ _ _ (by decide),
      lookup_assign_ne _ _ _ _ (by decide), lookup_assign_ne _ _ _ _ (by decide),
      lookup_assign_eq]
  · rw [lookup_assign_ne _ _ _ _ (by decide), lookup_assign_ne _ _ _ _ (by decide),
      lookup_assign_ne _ _ _ _ (by decide), lookup_assign_eq]
  · rw [lookup_assign_ne _ _ _ _ (by decide), lookup_assign_ne _ _ _ _ (by decide),
      lookup_assign_eq]
  · rw [lookup_assign_ne _ _ _ _ (by decide), lookup_assign_eq]
  · rw [lookup_assign_eq]
  · rw [lookup_assign_ne _ _ _ _ (by decide), lookup_assign_ne _ _ _ _ (by decide),
      lookup_assign_ne _ _ _ _ (by decide), lookup_assign_ne _ _ _ _ (by decide),
      lookup_assign_ne _ _ _ _ (by decide), lookup_assign_ne _ _ _ _ (by decide),
      lookup_assign_ne _ _ _ _ (by decide)]
    rfl

theorem mapLookup_baseLabels_tag (srv : Instance) (ip name : String) :
    mapLookup (baseLabels srv ip) (ecsLabelTag ++ name) = none := by
  unfold baseLabels
  rw [lookup_assign_ne _ _ _ _ (tag_label_ne _ name (by decide)),
    lookup_assign_ne _ _ _ _ (tag_label_ne _ name (by decide)),
    lookup_assign_ne _ _ _ _ (tag_label_ne _ name (by decide)),
    lookup_assign_ne _ _ _ _ (tag_label_ne _ name (by decide)),
    lookup_assign_ne _ _ _ _ (tag_label_ne _ name (by decide)),
    lookup_assign_ne _ _ _ _ (tag_label_ne _ name (by decide)),
    lookup_assign_ne _ _ _ _ (tag_label_ne _ name (by decide))]
  rfl

theorem mapLookup_labelsBeforeTags_tag (srv : Instance) (ip name : String) :
    mapLookup (labelsBeforeTags srv ip) (ecsLabelTag ++ name) = none := by
  unfold labelsBeforeTags
  split
  · exact mapLookup_baseLabels_tag srv ip name
  · rw [lookup_assign_ne _ _ _ _ (tag_label_ne _ name (by decide))]
    exact mapLookup_baseLabels_tag srv ip name

/-! ## C8 and C9: the group of a live instance -/

/-- C8, as the code has it: for an instance whose first private IP is `ip`, `createTarget`
returns the group with source `"ecs/" ++ InstanceId` and the single target address
`net.JoinHostPort ip port`, that is `ip ++ ":" ++ port` in decimal when `ip` has no colon
and `"[" ++ ip ++ "]:" ++ port` when it has one; the label set carries the seven labels
instance id, instance name, instance type, private IP (`ip`), status, region id and VPC
id, and the public IP label is the first public IP when there is one and is absent when
there is none. -/
theorem createTarget_live (d : ecsDiscoverer) (srv : Instance) (ip : String)
    (rest : List String) (h : srv.VpcAttributes.PrivateIpAddress.IpAddress = ip :: rest) :
    (createTarget d srv).Source = "ecs/" ++ srv.InstanceId ∧
    (createTarget d srv).Targets = [[(AddressLabel, JoinHostPort ip (fmtInt d.port))]] ∧
    (':' ∉ ip.data → JoinHostPort ip (fmtInt d.port) = ip ++ ":" ++ fmtInt d.port) ∧
    (':' ∈ ip.data → JoinHostPort ip (fmtInt d.port) = "[" ++ ip ++ "]:" ++ fmtInt d.port) ∧
    mapLookup (createTarget d srv).Labels ecsLabelInstanceId = some srv.InstanceId ∧
    mapLookup (createTarget d srv).Labels ecsLabelInstanceName = some srv.InstanceName ∧
    mapLookup (createTarget d srv).Labels ecsLabelInstanceType = some srv.InstanceType ∧
    mapLookup (createTarget d srv).Labels ecsLabelPrivateIP = some ip ∧
    mapLookup (createTarget d srv).Labels ecsLabelStatus = some srv.Status ∧
    mapLookup (createTarget d srv).Labels ecsLabelRegionId = some srv.RegionId ∧
    mapLookup (createTarget d srv).Labels ecsLabelVPCID = some srv.VpcAttributes.VpcId ∧
    mapLookup (createTarget d srv).Labels ecsLabelPublicIP =
      srv.PublicIpAddress.IpAddress.head? := by
  have hb := mapLookup_baseLabels srv ip
  have hpub : ∀ n : String, n ≠ ecsLabelPublicIP →
      mapLookup (labelsBeforeTags srv ip) n = mapLookup (baseLabels srv ip) n := by
    intro n hn
    unfold labelsBeforeTags
    split
    · rfl
    · rw [lookup_assign_ne _ _ _ _ hn]
  rw [createTarget_eq d srv ip rest h]
  refine ⟨rfl, rfl, ?_, ?_, ?_, ?_, ?_, ?_, ?_, ?_, ?_, ?_⟩
  · intro hc
    unfold JoinHostPort
    rw [if_neg hc]
  · intro hc
    unfold JoinHostPort
    rw [if_pos hc]
  · show mapLookup (tagLabels _ _) _ = _
    rw [mapLookup_tagLabels_other _ (by decide), hpub _ (by decide)]
    exact hb.1
  · show mapLookup (tagLabels _ _) _ = _
    rw [mapLookup_tagLabels_other _ (by decide), hpub _ (by decide)]
    exact hb.2.1
  · show mapLookup (tagLabels _ _) _ = _
    rw [mapLookup_tagLabels_other _ (by decide), hpub _ (by decide)]
    exact hb.2.2.1
  · show mapLookup (tagLabels _ _) _ = _
    rw [mapLookup_tagLabels_other _ (by decide), hpub _ (by decide)]
    exact hb.2.2.2.1
  · show mapLookup (tagLabels _ _) _ = _
    rw [mapLookup_tagLabels_other _ (by decide), hpub _ (by decide)]
    exact hb.2.2.2.2.1
  · show mapLookup (tagLabels _ _) _ = _
    rw [mapLookup_tagLabels_other _ (by decide), hpub _ (by decide)]
    exact hb.2.2.2.2.2.1
  · show mapLookup (tagLabels _ _) _ = _
    rw [mapLookup_tagLabels_other _ (by decide), hpub _ (by decide)]
    exact hb.2.2.2.2.2.2.1
  · show mapLookup (tagLabels _ _) _ = _
    rw [mapLookup_tagLabels_other _ (by decide)]
    unfold labelsBeforeTags
    split
    · rename_i hnil
      rw [hnil]
      exact hb.2.2.2.2.2.2.2
    · rename_i p ps hcons
      rw [hcons, lookup_assign_eq]
      rfl

/-- Witness of `createTarget_live`: an instance with the private IP 10.0.0.1, the public
IP 47.1.2.3 and port 80. -/
theorem createTarget_live_witness :
    (createTarget (newDiscoverer DefaultSDConfig)
        (sampleInstance "i-1" ["10.0.0.1"] ["47.1.2.3"] [])).Targets =
      [[("__address__", "10.0.0.1:80")]] ∧
    mapLookup
        (createTarget (newDiscoverer DefaultSDConfig)
          (sampleInstance "i-1" ["10.0.0.1"] ["47.1.2.3"] [])).Labels
        "__meta_ecs_public_ip" = some "47.1.2.3" ∧
    mapLookup
        (createTarget (newDiscoverer DefaultSDConfig)
          (sampleInstance "i-1" ["10.0.0.1"] ["47.1.2.3"] [])).Labels
        "__meta_ecs_private_ip" = some "10.0.0.1" :=
  have h := createTarget_live (newDiscoverer DefaultSDConfig)
    (sampleInstance "i-1" ["10.0.0.1"] ["47.1.2.3"] []) "10.0.0.1" [] rfl
  ⟨h.2.1, h.2.2.2.2.2.2.2.2.2.2.2, h.2.2.2.2.2.2.2.1⟩

/-- C8 as stated fails: an instance without a public IP gets no public IP label, and a
first private IP that contains a colon is put in brackets in the address. -/
theorem createTarget_live_counterexample :
    (sampleInstance "i-1" ["10.0.0.1"] [] []).VpcAttributes.PrivateIpAddress.IpAddress ≠ [] ∧
    mapLookup
        (createTarget (newDiscoverer DefaultSDConfig)
          (sampleInstance "i-1" ["10.0.0.1"] [] [])).Labels
        ecsLabelPublicIP = none ∧
    (createTarget (newDiscoverer DefaultSDConfig)
        (sampleInstance "i-2" ["fe80::1"] ["47.1.2.3"] [])).Targets =
      [[(AddressLabel, "[fe80::1]:80")]] ∧
    "[fe80::1]:80" ≠ "fe80::1" ++ ":" ++ fmtInt (newDiscoverer DefaultSDConfig).port := by
  decide

/-- C9: for an instance with a private IP, the label named `ecsLabelTag ++ name` is
present exactly when some tag with non-empty key and non-empty value has a key that
sanitizes to `name`, and then its value is the value of the last such tag in list order;
every label name that starts with `ecsLabelTag` has that form; a sanitized key has the
length of the key, keeps the characters of `[a-zA-Z0-9_]` and has `_` in place of every
other character. -/
theorem createTarget_tag_labels (d : ecsDiscoverer) (srv : Instance) (ip : String)
    (rest : List String) (h : srv.VpcAttributes.PrivateIpAddress.IpAddress = ip :: rest) :
    (∀ name : String,
      mapLookup (createTarget d srv).Labels (ecsLabelTag ++ name) =
        lastTagValue srv.Tags.Tag name) ∧
    (∀ name : String,
      (mapLookup (createTarget d srv).Labels (ecsLabelTag ++ name)).isSome = true ↔
        ∃ t ∈ srv.Tags.Tag, t.TagKey ≠ "" ∧ t.TagValue ≠ "" ∧
          SanitizeLabelName t.TagKey = name) ∧
    (∀ n : String, ecsLabelTag.data <+: n.data → ∃ name : String, n = ecsLabelTag ++ name) ∧
    (∀ key : String,
      (SanitizeLabelName key).data =
        key.data.map (fun c => if isLabelChar c = true then c else '_') ∧
      (SanitizeLabelName key).data.length = key.data.length ∧
      ∀ c ∈ (SanitizeLabelName key).data, isLabelChar c = true) := by
  have hlook : ∀ name : String,
      mapLookup (createTarget d srv).Labels (ecsLabelTag ++ name) =
        lastTagValue srv.Tags.Tag name := by
    intro name
    rw [createTarget_eq d srv ip rest h]
    show mapLookup (tagLabels _ _) _ = _
    rw [mapLookup_tagLabels, mapLookup_labelsBeforeTags_tag]
    cases lastTagValue srv.Tags.Tag name <;> rfl
  refine ⟨hlook, ?_, ?_, ?_⟩
  · intro name
    rw [hlook]
    unfold lastTagValue
    constructor
    · intro hs
      cases hl : (srv.Tags.Tag.filter
          (fun t => decide (t.TagKey ≠ "" ∧ t.TagValue ≠ "" ∧ SanitizeLabelName t.TagKey = name))).getLast? with
      | none =>
        rw [hl] at hs
        exact absurd hs (by decide)
      | some t =>
        have hmem := List.mem_of_getLast?_eq_some hl
        rw [List.mem_filter, decide_eq_true_eq] at hmem
        exact ⟨t, hmem.1, hmem.2⟩
    · rintro ⟨t, ht, hq⟩
      have hmem : t ∈ srv.Tags.Tag.filter
          (fun t => decide (t.TagKey ≠ "" ∧ t.TagValue ≠ "" ∧ SanitizeLabelName t.TagKey = name)) := by
        rw [List.mem_filter, decide_eq_true_eq]
        exact ⟨ht, hq⟩
      cases hl : (srv.Tags.Tag.filter
          (fun t => decide (t.TagKey ≠ "" ∧ t.TagValue ≠ "" ∧ SanitizeLabelName t.TagKey = name))).getLast? with
      | none =>
        rw [List.getLast?_eq_none_iff] at hl
        rw [hl] at hmem
        exact absurd hmem (List.not_mem_nil t)
      | some u => rfl
  · rintro n ⟨suffix, hs⟩
    refine ⟨String.mk suffix, ?_⟩
    rw [String.ext_iff, String.data_append, ← hs]
  · intro key
    refine ⟨rfl, by simp [SanitizeLabelName], ?_⟩
    intro c hc
    simp only [SanitizeLabelName, List.mem_map] at hc
    obtain ⟨a, _, hac⟩ := hc
    by_cases ha : isLabelChar a = true
    · rw [if_pos ha] at hac
      rw [← hac]
      exact ha
    · rw [if_neg ha] at hac
      rw [← hac]
      decide

/-- Witness of `createTarget_tag_labels`: two tags whose keys both sanitize to `app_name`
(the later wins), a tag with an empty value and a tag with an empty key. -/
theorem createTarget_tag_labels_witness :
    mapLookup
        (createTarget (newDiscoverer DefaultSDConfig)
          (sampleInstance "i-1" ["10.0.0.1"] []
            [{ TagKey := "app.name", TagValue := "old" }, { TagKey := "env", TagValue := "" },
             { TagKey := "app-name", TagValue := "new" }, { TagKey := "", TagValue := "x" }])).Labels
        "__meta_ecs_tag_app_name" = some "new" ∧
    mapLookup
        (createTarget (newDiscoverer DefaultSDConfig)
          (sampleInstance "i-1" ["10.0.0.1"] []
            [{ TagKey := "app.name", TagValue := "old" }, { TagKey := "env", TagValue := "" },
             { TagKey := "app-name", TagValue := "new" }, { TagKey := "", TagValue := "x" }])).Labels
        "__meta_ecs_tag_env" = none :=
  have h := (createTarget_tag_labels (newDiscoverer DefaultSDConfig)
    (sampleInstance "i-1" ["10.0.0.1"] []
      [{ TagKey := "app.name", TagValue := "old" }, { TagKey := "env", TagValue := "" },
       { TagKey := "app-name", TagValue := "new" }, { TagKey := "", TagValue := "x" }])
    "10.0.0.1" [] rfl).1
  ⟨(h "app_name").trans (by decide), (h "env").trans (by decide)⟩

end EcsSD
